import Mathlib

/-!
Shallow embedding of the resilient document pipeline in `server.js`:
the LlamaParse poll/extract orchestration (`parseDocumentWithLlamaParse`,
`findTextInObject`) and the Gemini model-fallback chain
(`summarizeWithGemini`).  Remote responses are modelled as an untyped
JSON tree; network effects are modelled as explicit environments giving
the outcome of each remote call.
-/

/-- Untyped JSON value, the shape of every remote response payload. -/
inductive Json where
  | str (s : String)
  | num (n : Int)
  | bool (b : Bool)
  | null
  | arr (items : List Json)
  | obj (fields : List (String × Json))

/-- JavaScript truthiness of a JSON value (`if (v)`): empty strings,
zero, `false` and `null` are falsy; objects and arrays are truthy. -/
def truthy : Json → Bool
  | .str s => !s.isEmpty
  | .num n => decide (n ≠ 0)
  | .bool b => b
  | .null => false
  | .arr _ => true
  | .obj _ => true

/-- First binding of a key in an association list (JS property lookup). -/
def lookupField : List (String × Json) → String → Option Json
  | [], _ => none
  | (k, v) :: rest, key => if k = key then some v else lookupField rest key

/-- Property access `d[key]`: `none` when absent or when `d` is not an
object (JS yields `undefined` there). -/
def getField (d : Json) (k : String) : Option Json :=
  match d with
  | .obj fs => lookupField fs k
  | _ => none

/-- Value of `d[key]` when it is present and truthy (the shape of every
`if (documentData.field)` guard in the source), `none` otherwise. -/
def fieldTruthy (d : Json) (k : String) : Option Json :=
  match getField d k with
  | some v => if truthy v then some v else none
  | none => none

/-- Index access `d[i]` on an array, `none` otherwise. -/
def getIndex (d : Json) (i : Nat) : Option Json :=
  match d with
  | .arr xs => xs[i]?
  | _ => none

/-- One escaped character of a JSON string literal. -/
def escapeChar (c : Char) : String :=
  if c = '"' then "\\\""
  else if c = '\\' then "\\\\"
  else if c = '\n' then "\\n"
  else if c = '\t' then "\\t"
  else if c = '\r' then "\\r"
  else String.singleton c

/-- Escape the body of a JSON string literal. -/
def escapeString (s : String) : String :=
  String.join (s.toList.map escapeChar)

/-- A JSON string literal with its surrounding quotes. -/
def quoteStr (s : String) : String :=
  "\"" ++ escapeString s ++ "\""

/-- Indentation of `n` spaces. -/
def spaces (n : Nat) : String :=
  String.mk (List.replicate n ' ')

mutual
/-- Model of `JSON.stringify(value, null, 2)` at a given indentation
level (two-space indent, one entry per line; control-character escaping
beyond the common cases is elided). -/
def stringifyAt : Nat → Json → String
  | _, .str s => quoteStr s
  | _, .num n => toString n
  | _, .bool b => if b then "true" else "false"
  | _, .null => "null"
  | _, .obj [] => "\x7b\x7d"
  | ind, .obj (f :: fs) =>
      "\x7b\n" ++ stringifyFields (ind + 2) (f :: fs) ++ "\n" ++ spaces ind ++ "\x7d"
  | _, .arr [] => "[]"
  | ind, .arr (x :: xs) =>
      "[\n" ++ stringifyItems (ind + 2) (x :: xs) ++ "\n" ++ spaces ind ++ "]"

/-- The comma-separated lines of an object body. -/
def stringifyFields : Nat → List (String × Json) → String
  | _, [] => ""
  | ind, [(k, v)] => spaces ind ++ quoteStr k ++ ": " ++ stringifyAt ind v
  | ind, (k, v) :: f :: fs =>
      spaces ind ++ quoteStr k ++ ": " ++ stringifyAt ind v ++ ",\n"
        ++ stringifyFields ind (f :: fs)

/-- The comma-separated lines of an array body. -/
def stringifyItems : Nat → List Json → String
  | _, [] => ""
  | ind, [v] => spaces ind ++ stringifyAt ind v
  | ind, v :: x :: xs =>
      spaces ind ++ stringifyAt ind v ++ ",\n" ++ stringifyItems ind (x :: xs)
end

/-- Model of `JSON.stringify(d, null, 2)` as used for degraded extraction. -/
def jsonStringify (d : Json) : String :=
  stringifyAt 0 d

mutual
/-- The `findTextInObject` helper (server.js, last-resort extraction): walk the
tree with `for (const key in obj)`, returning the first string value
longer than 100 characters; recurse into object and array values,
skip every other value. -/
def findTextInObject : Json → Option String
  | .obj fs => findFields fs
  | .arr xs => findItems xs
  | _ => none

/-- The `for (const key in obj)` walk over an object's entries. -/
def findFields : List (String × Json) → Option String
  | [] => none
  | (_, Json.str s) :: rest =>
      if 100 < s.length then some s else findFields rest
  | (_, Json.obj fs) :: rest =>
      match findFields fs with
      | some s => some s
      | none => findFields rest
  | (_, Json.arr xs) :: rest =>
      match findItems xs with
      | some s => some s
      | none => findFields rest
  | _ :: rest => findFields rest

/-- The `for (const key in obj)` walk over an array's elements. -/
def findItems : List Json → Option String
  | [] => none
  | Json.str s :: rest =>
      if 100 < s.length then some s else findItems rest
  | Json.obj fs :: rest =>
      match findFields fs with
      | some s => some s
      | none => findItems rest
  | Json.arr xs :: rest =>
      match findItems xs with
      | some s => some s
      | none => findItems rest
  | _ :: rest => findItems rest
end

mutual
/-- All string values of a tree in the depth-first order in which
`findTextInObject` visits them (the root itself is never a visited
value, matching the source, which only inspects property values). -/
def dfStrings : Json → List String
  | .obj fs => dfFields fs
  | .arr xs => dfItems xs
  | _ => []

/-- Depth-first string values under an object's entries. -/
def dfFields : List (String × Json) → List String
  | [] => []
  | (_, Json.str s) :: rest => s :: dfFields rest
  | (_, Json.obj fs) :: rest => dfFields fs ++ dfFields rest
  | (_, Json.arr xs) :: rest => dfItems xs ++ dfFields rest
  | _ :: rest => dfFields rest

/-- Depth-first string values under an array's elements. -/
def dfItems : List Json → List String
  | [] => []
  | Json.str s :: rest => s :: dfItems rest
  | Json.obj fs :: rest => dfFields fs ++ dfItems rest
  | Json.arr xs :: rest => dfItems xs ++ dfItems rest
  | _ :: rest => dfItems rest
end

/-- The length threshold test of `findTextInObject`. -/
def longPred (s : String) : Bool :=
  decide (100 < s.length)

/-- Result resolution of `parseDocumentWithLlamaParse` (server.js lines
280-334): the `if/else` chain assigning `parsedText` from the document
payload.  `none` means no branch assigned anything, so `parsedText`
keeps its previous value `''`.  The chain: `markdown`, `text`,
`content`, `parsed_content`; then `result` (itself a string, or its
`markdown`/`text`/`content`); then `data` (itself a string, or its
`markdown`/`text`); then `document` (itself a string, or its
`markdown`/`text`); then the payload itself when it is a string; and
finally the `findTextInObject` / `JSON.stringify` last resort. -/
def extractTextJ (d : Json) : Option Json :=
  match fieldTruthy d "markdown" with
  | some v => some v
  | none =>
  match fieldTruthy d "text" with
  | some v => some v
  | none =>
  match fieldTruthy d "content" with
  | some v => some v
  | none =>
  match fieldTruthy d "parsed_content" with
  | some v => some v
  | none =>
  match fieldTruthy d "result" with
  | some r =>
    (match r with
     | Json.str _ => some r
     | _ =>
       match fieldTruthy r "markdown" with
       | some v => some v
       | none =>
       match fieldTruthy r "text" with
       | some v => some v
       | none =>
       match fieldTruthy r "content" with
       | some v => some v
       | none => none)
  | none =>
  match fieldTruthy d "data" with
  | some r =>
    (match r with
     | Json.str _ => some r
     | _ =>
       match fieldTruthy r "markdown" with
       | some v => some v
       | none =>
       match fieldTruthy r "text" with
       | some v => some v
       | none => none)
  | none =>
  match fieldTruthy d "document" with
  | some r =>
    (match r with
     | Json.str _ => some r
     | _ =>
       match fieldTruthy r "markdown" with
       | some v => some v
       | none =>
       match fieldTruthy r "text" with
       | some v => some v
       | none => none)
  | none =>
  match d with
  | Json.str s => some (Json.str s)
  | _ =>
    match findTextInObject d with
    | some s => some (Json.str s)
    | none => some (Json.str (jsonStringify d))

/-- Normalized job status as the poll loop classifies it. -/
inductive JobStatus where
  | success
  | error
  | pending
  | unknown
deriving DecidableEq, Repr

/-- Classification of `statusResponse.data.status` by the poll loop:
exact comparisons against `'success'`/`'SUCCESS'`,
`'error'`/`'ERROR'`, `'pending'`/`'PENDING'`; anything else (any other
casing, a missing field, a non-string) is the unknown branch. -/
def statusOf (d : Json) : JobStatus :=
  match getField d "status" with
  | some (Json.str s) =>
    if s = "success" || s = "SUCCESS" then .success
    else if s = "error" || s = "ERROR" then .error
    else if s = "pending" || s = "PENDING" then .pending
    else .unknown
  | _ => .unknown

/-- The `hasResult` test (server.js lines 197-198): whether the status payload
already carries one of the six recognized result fields (truthily). -/
def hasResult (d : Json) : Bool :=
  (fieldTruthy d "markdown").isSome || (fieldTruthy d "text").isSome
    || (fieldTruthy d "content").isSome || (fieldTruthy d "result").isSome
    || (fieldTruthy d "data").isSome || (fieldTruthy d "parsed_content").isSome

/-- Outcomes of the auxiliary result-retrieval calls made when the
status payload carries no recognized field: the six alternate result
endpoints tried in order, then the fresh v1 status check, then the
fresh legacy status check (`none` models a failed call). -/
structure ResolveEnv where
  endpoints : List (Option Json)
  fresh1 : Option Json
  fresh2 : Option Json

/-- First successful call of the alternate-endpoint loop. -/
def firstOk : List (Option Json) → Option Json
  | [] => none
  | some d :: _ => some d
  | none :: rest => firstOk rest

/-- The `documentData` value as computed on a success status (server.js lines
190-274): the status payload itself when it has a recognized field,
otherwise the first alternate endpoint that answers, otherwise a fresh
status fetch (v1 then legacy), otherwise the original status payload. -/
def computeDocumentData (statusData : Json) (renv : ResolveEnv) : Json :=
  if hasResult statusData then statusData
  else
    match firstOk renv.endpoints with
    | some d => d
    | none =>
      match renv.fresh1 with
      | some d => d
      | none =>
        match renv.fresh2 with
        | some d => d
        | none => statusData

/-- One poll iteration's remote interaction: either both status
endpoints failed (`err`, recording whether the final failure carried
HTTP status 404), or a status payload was obtained (`ok`, with the
outcomes of any auxiliary result calls a success status would make). -/
inductive PollStep where
  | err (is404 : Bool)
  | ok (payload : Json) (renv : ResolveEnv)

/-- Terminal outcome of `parseDocumentWithLlamaParse`.  The source
never produces a distinct job-failed outcome: the `throw` on an error
status is caught by the poll loop's own `catch` (a plain `Error` has no
`response.status`), logged, and swallowed, so the loop continues. -/
inductive ParseOutcome where
  | success (text : Json)
  | notFoundErr
  | timeout
  | noJobId

/-- The poll loop (server.js lines 151-363) from attempt number `a`
with `fuel` iterations left.  A transport fault is swallowed unless it
is a 404; an error status raises an error that its own `catch`
swallows; pending and unknown statuses continue; a success status
resolves the document and breaks only when the extracted value is
truthy; an exhausted budget is the timeout error. -/
def pollFrom (env : Nat → PollStep) : Nat → Nat → ParseOutcome
  | _, 0 => .timeout
  | a, fuel + 1 =>
    match env a with
    | .err is404 => if is404 then .notFoundErr else pollFrom env (a + 1) fuel
    | .ok d renv =>
      match statusOf d with
      | .success =>
        match extractTextJ (computeDocumentData d renv) with
        | some v => if truthy v then .success v else pollFrom env (a + 1) fuel
        | none => pollFrom env (a + 1) fuel
      | .error => pollFrom env (a + 1) fuel
      | .pending => pollFrom env (a + 1) fuel
      | .unknown => pollFrom env (a + 1) fuel

/-- The poll budget `maxAttempts` (server.js line 149). -/
def maxAttempts : Nat := 60

/-- Job id resolution `response.data.id || response.data.job_id` followed by the
`if (!jobId)` guard: the job id when either field is present and
truthy. -/
def getJobId (resp : Json) : Option Json :=
  match fieldTruthy resp "id" with
  | some v => some v
  | none => fieldTruthy resp "job_id"

/-- The body of `parseDocumentWithLlamaParse` after the upload call: `resp` is the
submission response, `env` the poll environment.  Missing job id fails
before any polling; otherwise the poll loop runs with the full attempt
budget. -/
def parseDocumentWithLlamaParse (resp : Json) (env : Nat → PollStep) : ParseOutcome :=
  match getJobId resp with
  | none => .noJobId
  | some _ => pollFrom env 0 maxAttempts

/-- Outcome of one SDK call `model.generateContent(prompt)`:
the response text, or the thrown error's message. -/
inductive ModelResult where
  | ok (text : String)
  | err (msg : String)

/-- Outcome of the direct REST fallback call: the parsed response
body, or the thrown error's message. -/
inductive RestOutcome where
  | ok (data : Json)
  | err (msg : String)

/-- The summarization environment: the outcome of an SDK call per
model name, and the outcome of the single REST fallback call. -/
structure GeminiEnv where
  sdk : String → ModelResult
  rest : RestOutcome

/-- Scan of `pat.isPrefixOf l` along `l`: JavaScript
`String.prototype.includes`. -/
def infixCheck (pat : List Char) (l : List Char) : Bool :=
  match l with
  | [] => pat.isEmpty
  | c :: rest => pat.isPrefixOf (c :: rest) || infixCheck pat rest

/-- JavaScript `s.includes(pat)`. -/
def strIncludes (s pat : String) : Bool :=
  infixCheck pat.toList s.toList

/-- The model-not-found test of `summarizeWithGemini`:
`message.includes('404') || message.includes('not found')`. -/
def isNotFoundMsg (m : String) : Bool :=
  strIncludes m "404" || strIncludes m "not found"

/-- The fixed candidate list (server.js line 402). -/
def modelNames : List String :=
  ["gemini-1.5-flash", "gemini-1.5-pro", "gemini-pro"]

/-- The `for (const modelName of modelNames)` loop: stop with the
first call's text; skip to the next name on a not-found-class failure;
rethrow any other failure.  `Except.ok none` means the list was
exhausted with `summary` still `null`. -/
def tryModels (sdk : String → ModelResult) : List String → Except String (Option String)
  | [] => .ok none
  | m :: rest =>
    match sdk m with
    | .ok t => .ok (some t)
    | .err msg => if isNotFoundMsg msg then tryModels sdk rest else .error msg

/-- Terminal outcome of `summarizeWithGemini`. -/
inductive SummarizeOutcome where
  | ok (text : Json)
  | upstreamErr (msg : String)
  | restErr (msg : String)
  | noUsableText

/-- Optional chain `restResponse.data?.candidates?.[0]?.content?.parts?.[0]?.text`. -/
def restText (d : Json) : Option Json :=
  (((((getField d "candidates").bind fun c => getIndex c 0).bind
      fun c0 => getField c0 "content").bind
      fun ct => getField ct "parts").bind
      fun ps => getIndex ps 0).bind
    fun p0 => getField p0 "text"

/-- The REST fallback (server.js lines 426-449): a failing call
surfaces its own error; a response whose extracted text field is
missing or falsy is the `Failed to get response from Gemini API`
error; otherwise the text field is the summary. -/
def restPart (env : GeminiEnv) : SummarizeOutcome :=
  match env.rest with
  | .err msg => .restErr msg
  | .ok data =>
    match restText data with
    | some v => if truthy v then .ok v else .noUsableText
    | none => .noUsableText

/-- The `summarizeWithGemini` flow (server.js lines 388-458): run the SDK
candidate chain; a rethrown SDK error propagates; `if (!summary)`
(exhausted chain, or a first success whose text is empty) runs the
REST fallback once. -/
def summarizeWithGemini (env : GeminiEnv) : SummarizeOutcome :=
  match tryModels env.sdk modelNames with
  | .error msg => .upstreamErr msg
  | .ok (some t) => if t.isEmpty then restPart env else .ok (.str t)
  | .ok none => restPart env

/-- Reference formulation of one level of recursion in the spec's §4.1
precedence list as written: a mapping-valued field is resolved through
its own `markdown`/`text`/`content`; a string value stands for
itself. -/
def specOneLevelMTC (v : Json) : Option Json :=
  match v with
  | Json.str _ => some v
  | _ =>
    match fieldTruthy v "markdown" with
    | some w => some w
    | none =>
    match fieldTruthy v "text" with
    | some w => some w
    | none =>
    match fieldTruthy v "content" with
    | some w => some w
    | none => none

/-- One level of recursion checking `markdown`/`text` only, the form
the source actually uses under `data` and `document`. -/
def specOneLevelMT (v : Json) : Option Json :=
  match v with
  | Json.str _ => some v
  | _ =>
    match fieldTruthy v "markdown" with
    | some w => some w
    | none =>
    match fieldTruthy v "text" with
    | some w => some w
    | none => none

/-- The §4.1 precedence list exactly as the spec states it: `markdown`
→ `text` → `content` → `parsed_content` → `result` (one-level
recursion through `markdown`/`text`/`content`) → `data` (same) →
`document` (same) → the payload itself when it is a scalar string.
First truthy match wins; a matched container field that resolves to
nothing ends the chain (as in the source). -/
def specPrecedenceStated (d : Json) : Option Json :=
  match fieldTruthy d "markdown" with
  | some v => some v
  | none =>
  match fieldTruthy d "text" with
  | some v => some v
  | none =>
  match fieldTruthy d "content" with
  | some v => some v
  | none =>
  match fieldTruthy d "parsed_content" with
  | some v => some v
  | none =>
  match fieldTruthy d "result" with
  | some r => specOneLevelMTC r
  | none =>
  match fieldTruthy d "data" with
  | some r => specOneLevelMTC r
  | none =>
  match fieldTruthy d "document" with
  | some r => specOneLevelMTC r
  | none =>
  match d with
  | Json.str _ => some d
  | _ => none

/-- The precedence list as amended to match the source: identical to
`specPrecedenceStated` except that the one-level recursion under
`data` and `document` checks `markdown`/`text` only (`content` is
checked under `result` alone). -/
def specPrecedenceAmended (d : Json) : Option Json :=
  match fieldTruthy d "markdown" with
  | some v => some v
  | none =>
  match fieldTruthy d "text" with
  | some v => some v
  | none =>
  match fieldTruthy d "content" with
  | some v => some v
  | none =>
  match fieldTruthy d "parsed_content" with
  | some v => some v
  | none =>
  match fieldTruthy d "result" with
  | some r => specOneLevelMTC r
  | none =>
  match fieldTruthy d "data" with
  | some r => specOneLevelMT r
  | none =>
  match fieldTruthy d "document" with
  | some r => specOneLevelMT r
  | none =>
  match d with
  | Json.str _ => some d
  | _ => none

/-- A poll iteration from which the loop moves on to the next attempt:
a swallowed transport fault, a swallowed error status, a transient
status, or a success status whose extracted value is falsy. -/
def stepContinues : PollStep → Bool
  | .err is404 => !is404
  | .ok d renv =>
    match statusOf d with
    | .success =>
      match extractTextJ (computeDocumentData d renv) with
      | some v => !truthy v
      | none => true
    | .error => true
    | .pending => true
    | .unknown => true

/-- No branch of the structured resolution chain matches: none of the
seven recognized fields is present and truthy, and the payload is not
itself a string — exactly the payloads that reach the
`findTextInObject` / `JSON.stringify` last resort. -/
def noRecognizedField (d : Json) : Bool :=
  (fieldTruthy d "markdown").isNone && (fieldTruthy d "text").isNone
    && (fieldTruthy d "content").isNone && (fieldTruthy d "parsed_content").isNone
    && (fieldTruthy d "result").isNone && (fieldTruthy d "data").isNone
    && (fieldTruthy d "document").isNone
    && (match d with | Json.str _ => false | _ => true)

/-- A resolution environment in which every auxiliary result call
fails, so `documentData` stays the status payload. -/
def emptyResolve : ResolveEnv := ⟨[], none, none⟩

/-- A status payload reporting the `error` status with a remote error
message. -/
def errPayload : Json :=
  Json.obj [("status", Json.str "error"), ("error", Json.str "parse blew up")]

/-- A poll environment in which every attempt reports the `error`
status. -/
def errEnv : Nat → PollStep :=
  fun _ => PollStep.ok errPayload emptyResolve

/-- A status payload that never leaves `pending`. -/
def pendPayload : Json :=
  Json.obj [("status", Json.str "pending")]

/-- A poll environment in which every attempt reports `pending`. -/
def pendEnv : Nat → PollStep :=
  fun _ => PollStep.ok pendPayload emptyResolve

/-- A 150-character scalar string. -/
def str150 : String :=
  String.mk (List.replicate 150 'a')

/-- A success payload with no recognized field whose only long string
sits at depth 2 (`pages.md`). -/
def depth2Payload : Json :=
  Json.obj [("job_metadata", Json.obj [("credits", Json.num 1)]),
            ("pages", Json.obj [("md", Json.str str150)])]

/-- A success payload with `status: success`, a truthy unrecognized
shape, and no string longer than 100 characters anywhere: degraded
extraction must serialize it. -/
def degPayload : Json :=
  Json.obj [("status", Json.str "success"), ("job_id", Json.str "j-1")]

/-- A poll environment whose every attempt reports success with the
degraded payload and whose auxiliary calls all fail. -/
def degEnv : Nat → PollStep :=
  fun _ => PollStep.ok degPayload emptyResolve

/-- A success payload whose only recognized field, `result`, is a
truthy object with none of `markdown`/`text`/`content` inside: the
resolution chain matches it and assigns nothing. -/
def emptyExtractPayload : Json :=
  Json.obj [("status", Json.str "success"), ("result", Json.obj [("page", Json.num 1)])]

/-- A poll environment whose every attempt reports success with
`emptyExtractPayload`. -/
def emptyExtractEnv : Nat → PollStep :=
  fun _ => PollStep.ok emptyExtractPayload emptyResolve

/-- A REST response body of the successful shape
`data.candidates[0].content.parts[0].text`. -/
def restOkBody (t : String) : Json :=
  Json.obj [("candidates", Json.arr [Json.obj [("content",
    Json.obj [("parts", Json.arr [Json.obj [("text", Json.str t)]])])]])]

/-- A summarization environment whose first candidate succeeds with
empty text and whose later candidates would succeed with other text. -/
def emptyFirstEnv : GeminiEnv :=
  { sdk := fun m =>
      if m = "gemini-1.5-flash" then ModelResult.ok "" else ModelResult.ok "from-pro"
    rest := RestOutcome.ok (restOkBody "rest-fallback-text") }

/-- A summarization environment whose first candidate fails with a
not-found message and whose remaining candidates succeed. -/
def skipFirstEnv : GeminiEnv :=
  { sdk := fun m =>
      if m = "gemini-1.5-flash" then ModelResult.err "404 model not found"
      else ModelResult.ok "summary-text"
    rest := RestOutcome.err "unused" }

/-- A summarization environment in which every candidate fails with a
not-found message and the REST fallback succeeds. -/
def allNotFoundEnv : GeminiEnv :=
  { sdk := fun _ => ModelResult.err "models/x is not found for API version v1beta"
    rest := RestOutcome.ok (restOkBody "rest-summary") }

theorem pollFrom_succ (env : Nat → PollStep) (a fuel : Nat) :
    pollFrom env a (fuel + 1)
      = match env a with
        | .err is404 => if is404 then .notFoundErr else pollFrom env (a + 1) fuel
        | .ok d renv =>
          match statusOf d with
          | .success =>
            match extractTextJ (computeDocumentData d renv) with
            | some v => if truthy v then .success v else pollFrom env (a + 1) fuel
            | none => pollFrom env (a + 1) fuel
          | .error => pollFrom env (a + 1) fuel
          | .pending => pollFrom env (a + 1) fuel
          | .unknown => pollFrom env (a + 1) fuel := rfl

theorem pollFrom_step (env : Nat → PollStep) (a fuel : Nat)
    (h : stepContinues (env a) = true) :
    pollFrom env a (fuel + 1) = pollFrom env (a + 1) fuel := by
  unfold stepContinues at h
  rw [pollFrom_succ]
  cases he : env a with
  | err is404 =>
    rw [he] at h
    simp at h
    simp [h]
  | ok d renv =>
    rw [he] at h
    cases hs : statusOf d <;> simp [hs] at h ⊢
    cases hx : extractTextJ (computeDocumentData d renv) with
    | none => simp
    | some v =>
      rw [hx] at h
      simp at h
      simp [h]

theorem pollFrom_all_continue (env : Nat → PollStep)
    (h : ∀ i, stepContinues (env i) = true) :
    ∀ fuel a, pollFrom env a fuel = .timeout := by
  intro fuel
  induction fuel with
  | zero => intro a; rfl
  | succ n ih =>
    intro a
    rw [pollFrom_step env a n (h a)]
    exact ih (a + 1)

mutual
theorem findFields_eq : ∀ l : List (String × Json),
    findFields l = (dfFields l).find? longPred
  | [] => by simp [findFields, dfFields]
  | (k, Json.str s) :: rest => by
      rw [findFields, dfFields]
      by_cases h : 100 < s.length
      · rw [if_pos h, List.find?_cons_of_pos _ (by simpa [longPred] using h)]
      · rw [if_neg h, List.find?_cons_of_neg _ (by simpa [longPred] using h),
          findFields_eq rest]
  | (k, Json.obj fs) :: rest => by
      rw [findFields, dfFields, List.find?_append, ← findFields_eq fs,
        ← findFields_eq rest]
      cases findFields fs <;> simp [Option.or]
  | (k, Json.arr xs) :: rest => by
      rw [findFields, dfFields, List.find?_append, ← findItems_eq xs,
        ← findFields_eq rest]
      cases findItems xs <;> simp [Option.or]
  | (k, Json.num n) :: rest => by
      simp [findFields, dfFields, findFields_eq rest]
  | (k, Json.bool b) :: rest => by
      simp [findFields, dfFields, findFields_eq rest]
  | (k, Json.null) :: rest => by
      simp [findFields, dfFields, findFields_eq rest]

theorem findItems_eq : ∀ xs : List Json,
    findItems xs = (dfItems xs).find? longPred
  | [] => by simp [findItems, dfItems]
  | Json.str s :: rest => by
      rw [findItems, dfItems]
      by_cases h : 100 < s.length
      · rw [if_pos h, List.find?_cons_of_pos _ (by simpa [longPred] using h)]
      · rw [if_neg h, List.find?_cons_of_neg _ (by simpa [longPred] using h),
          findItems_eq rest]
  | Json.obj fs :: rest => by
      rw [findItems, dfItems, List.find?_append, ← findFields_eq fs,
        ← findItems_eq rest]
      cases findFields fs <;> simp [Option.or]
  | Json.arr xs :: rest => by
      rw [findItems, dfItems, List.find?_append, ← findItems_eq xs,
        ← findItems_eq rest]
      cases findItems xs <;> simp [Option.or]
  | Json.num n :: rest => by
      simp [findItems, dfItems, findItems_eq rest]
  | Json.bool b :: rest => by
      simp [findItems, dfItems, findItems_eq rest]
  | Json.null :: rest => by
      simp [findItems, dfItems, findItems_eq rest]
end

theorem findTextInObject_eq (d : Json) :
    findTextInObject d = (dfStrings d).find? longPred := by
  cases d <;> simp [findTextInObject, dfStrings, findFields_eq, findItems_eq]

theorem fieldTruthy_of_getField_none (d : Json) (k : String)
    (h : getField d k = none) : fieldTruthy d k = none := by
  unfold fieldTruthy
  rw [h]

theorem extract_unrecognized (d : Json) (h : noRecognizedField d = true) :
    extractTextJ d = some (Json.str ((findTextInObject d).getD (jsonStringify d))) := by
  unfold noRecognizedField at h
  simp only [Bool.and_eq_true, Option.isNone_iff_eq_none] at h
  obtain ⟨⟨⟨⟨⟨⟨⟨h1, h2⟩, h3⟩, h4⟩, h5⟩, h6⟩, h7⟩, h8⟩ := h
  simp only [extractTextJ, h1, h2, h3, h4, h5, h6, h7]
  cases d <;> simp_all
  all_goals cases hf : findTextInObject _ <;> simp [hf]

theorem statusOf_iff (d : Json) :
    (statusOf d = JobStatus.success ↔
      getField d "status" = some (Json.str "success")
        ∨ getField d "status" = some (Json.str "SUCCESS"))
    ∧ (statusOf d = JobStatus.error ↔
      getField d "status" = some (Json.str "error")
        ∨ getField d "status" = some (Json.str "ERROR"))
    ∧ (statusOf d = JobStatus.pending ↔
      getField d "status" = some (Json.str "pending")
        ∨ getField d "status" = some (Json.str "PENDING")) := by
  unfold statusOf
  cases hg : getField d "status" with
  | none => simp
  | some v =>
    cases v with
    | str s =>
      dsimp only
      refine ⟨?_, ?_, ?_⟩ <;> split_ifs with h1 h2 h3 <;> simp_all <;>
        first
        | tauto
        | (rcases h1 with rfl | rfl <;> simp)
        | (rcases h2 with rfl | rfl <;> simp)
    | num n => simp
    | bool b => simp
    | null => simp
    | arr xs => simp
    | obj fs => simp

/-- C1 (amended): result resolution follows the §4.1 precedence list
with the one-level recursion under `data` and `document` checking
`markdown`/`text` only (`content` is recursed into under `result`
alone): whenever the amended precedence list selects a value, the
source's resolution chain returns exactly that value. -/
theorem C1_field_precedence (d v : Json)
    (h : specPrecedenceAmended d = some v) : extractTextJ d = some v := by
  unfold specPrecedenceAmended specOneLevelMTC specOneLevelMT at h
  unfold extractTextJ
  repeat' split at h
  all_goals simp_all

/-- C1 (counterexample): on `{data: {content: "nested body"}}` the
precedence list as the claim states it resolves `data.content`, but
the source's chain matches the truthy `data`, looks only for
`markdown`/`text` inside it, and assigns nothing. -/
theorem C1_counterexample :
    specPrecedenceStated
        (Json.obj [("data", Json.obj [("content", Json.str "nested body")])])
        = some (Json.str "nested body")
      ∧ extractTextJ (Json.obj [("data", Json.obj [("content", Json.str "nested body")])])
        = none :=
  ⟨rfl, rfl⟩

/-- C1 witness: a payload whose `markdown` is the empty string and
whose `text` is `"hello"` resolves to `"hello"` through the amended
precedence list. -/
theorem C1_field_precedence_witness :
    specPrecedenceAmended (Json.obj [("markdown", Json.str ""), ("text", Json.str "hello")])
        = some (Json.str "hello")
      ∧ extractTextJ (Json.obj [("markdown", Json.str ""), ("text", Json.str "hello")])
        = some (Json.str "hello") :=
  ⟨rfl, C1_field_precedence _ _ rfl⟩

/-- C2 (code bug): an observed `error` status does not fail the call.
The `throw` on the error branch happens inside the poll loop's `try`;
the loop's own `catch` receives a plain `Error` with no
`response.status`, so the 404 test fails and the error is swallowed,
and polling continues.  On an environment that always reports `error`,
the iteration is a continuing step and the whole budget is consumed,
ending in the timeout error; the embedding's outcome type has no
job-failed case because the source cannot produce one. -/
theorem C2_error_status_swallowed :
    statusOf errPayload = JobStatus.error
      ∧ stepContinues (PollStep.ok errPayload emptyResolve) = true
      ∧ pollFrom errEnv 0 maxAttempts = ParseOutcome.timeout :=
  ⟨rfl, rfl, pollFrom_all_continue errEnv (fun _ => rfl) maxAttempts 0⟩

theorem truthy_str_ne (s : String) (h : s ≠ "") : truthy (Json.str s) = true := by
  show (!s.isEmpty) = true
  cases hi : s.isEmpty
  · rfl
  · exact absurd ((String.isEmpty_iff s).mp hi) h

theorem stringify_obj_ne (fs : List (String × Json)) : jsonStringify (Json.obj fs) ≠ "" := by
  cases fs with
  | nil => rw [jsonStringify, stringifyAt]; decide
  | cons f fs' =>
    rw [jsonStringify, stringifyAt]
    intro h
    have hlen := congrArg String.length h
    simp only [String.length_append] at hlen
    have l1 : String.length "\x7b\n" = 2 := by decide
    have l2 : String.length "" = 0 := by decide
    rw [l1, l2] at hlen
    omega

theorem findTextInObject_degPayload : findTextInObject degPayload = none := by
  have h1 : ¬ (100 < String.length "success") := by decide
  have h2 : ¬ (100 < String.length "j-1") := by decide
  simp [degPayload, findTextInObject, findFields, h1, h2]

theorem extractTextJ_degPayload :
    extractTextJ degPayload = some (Json.str (jsonStringify degPayload)) := by
  rw [extract_unrecognized degPayload rfl, findTextInObject_degPayload]
  rfl

theorem pollFrom_success_step (env : Nat → PollStep) (a fuel : Nat)
    (d : Json) (renv : ResolveEnv) (v : Json)
    (he : env a = PollStep.ok d renv) (hs : statusOf d = JobStatus.success)
    (hx : extractTextJ (computeDocumentData d renv) = some v) (hv : truthy v = true) :
    pollFrom env a (fuel + 1) = ParseOutcome.success v := by
  rw [pollFrom_succ, he]
  simp [hs, hx, hv]

/-- C3: when no recognized precedence field matches, extraction is the
depth-first search for the first string longer than 100 characters
(`findTextInObject` equals `find?` over the depth-first string list),
falling back to the serialization of the whole payload; the 150-char
string at depth 2 of `depth2Payload` is returned exactly, and a
degraded (serialized) payload still breaks the poll loop as a
success. -/
theorem C3_unstructured_extraction :
    (∀ d : Json, findTextInObject d = (dfStrings d).find? longPred)
      ∧ (∀ d : Json, noRecognizedField d = true →
          extractTextJ d
            = some (Json.str (((dfStrings d).find? longPred).getD (jsonStringify d))))
      ∧ extractTextJ depth2Payload = some (Json.str str150)
      ∧ pollFrom degEnv 0 1 = ParseOutcome.success (Json.str (jsonStringify degPayload)) := by
  refine ⟨findTextInObject_eq, ?_, ?_, ?_⟩
  · intro d h
    rw [extract_unrecognized d h, findTextInObject_eq]
  · have hlen : 100 < String.length str150 := by simp [str150, String.length]
    have hfind : findTextInObject depth2Payload = some str150 := by
      simp [depth2Payload, findTextInObject, findFields, hlen]
    rw [extract_unrecognized depth2Payload rfl, hfind]
    rfl
  · exact pollFrom_success_step degEnv 0 0 degPayload emptyResolve _ rfl rfl
      extractTextJ_degPayload (truthy_str_ne _ (stringify_obj_ne _))

/-- C3 witness: `depth2Payload` has no recognized field, and
extraction on it equals the depth-first-search formulation. -/
theorem C3_unstructured_extraction_witness :
    noRecognizedField depth2Payload = true
      ∧ extractTextJ depth2Payload
          = some (Json.str (((dfStrings depth2Payload).find? longPred).getD
              (jsonStringify depth2Payload))) :=
  ⟨rfl, C3_unstructured_extraction.2.1 depth2Payload rfl⟩

/-- C4 (counterexample): the casing variant `Success` is classified
as unknown, not success: a payload carrying it together with a
`markdown` field does not resolve, and a one-attempt budget ends in
the timeout error instead of a successful result. -/
theorem C4_counterexample :
    statusOf (Json.obj [("status", Json.str "Success"), ("markdown", Json.str "hello")])
        = JobStatus.unknown
      ∧ pollFrom (fun _ => PollStep.ok
            (Json.obj [("status", Json.str "Success"), ("markdown", Json.str "hello")])
            emptyResolve) 0 1
          = ParseOutcome.timeout :=
  ⟨rfl, rfl⟩

/-- C4 (amended): the poll loop classifies the remote status into
`{pending, success, error, unknown}` by exact comparison with the
all-lowercase and all-uppercase spellings only — `success`/`SUCCESS`,
`error`/`ERROR`, `pending`/`PENDING` — every other status string
(mixed casings included) is unknown, and both pending and unknown
steps continue polling without raising an error. -/
theorem C4_status_normalization :
    (∀ d : Json,
      (statusOf d = JobStatus.success ↔
        getField d "status" = some (Json.str "success")
          ∨ getField d "status" = some (Json.str "SUCCESS"))
      ∧ (statusOf d = JobStatus.error ↔
        getField d "status" = some (Json.str "error")
          ∨ getField d "status" = some (Json.str "ERROR"))
      ∧ (statusOf d = JobStatus.pending ↔
        getField d "status" = some (Json.str "pending")
          ∨ getField d "status" = some (Json.str "PENDING"))
      ∧ (statusOf d = JobStatus.success ∨ statusOf d = JobStatus.error
          ∨ statusOf d = JobStatus.pending ∨ statusOf d = JobStatus.unknown))
    ∧ (∀ (env : Nat → PollStep) (a fuel : Nat) (d : Json) (renv : ResolveEnv),
        env a = PollStep.ok d renv →
        statusOf d = JobStatus.pending ∨ statusOf d = JobStatus.unknown →
        pollFrom env a (fuel + 1) = pollFrom env (a + 1) fuel) := by
  constructor
  · intro d
    refine ⟨(statusOf_iff d).1, (statusOf_iff d).2.1, (statusOf_iff d).2.2, ?_⟩
    cases statusOf d <;> simp
  · intro env a fuel d renv he hs
    apply pollFrom_step
    rcases hs with hs | hs <;> simp [stepContinues, he, hs]

/-- C4 witness: `SUCCESS` is classified as success, and a pending
step continues polling. -/
theorem C4_status_normalization_witness :
    statusOf (Json.obj [("status", Json.str "SUCCESS")]) = JobStatus.success
      ∧ pollFrom pendEnv 0 1 = pollFrom pendEnv 1 0 :=
  ⟨((C4_status_normalization.1 _).1).mpr (Or.inr rfl),
   C4_status_normalization.2 pendEnv 0 0 pendPayload emptyResolve rfl (Or.inl rfl)⟩

/-- C7: a poll budget exhausted on nothing but continuing iterations
ends in the timeout error; in particular a job that never leaves
`pending` for the whole `maxAttempts` budget fails with timeout and
never with a successful result. -/
theorem C7_timeout_on_budget_exhaustion :
    (∀ env : Nat → PollStep, (∀ i, stepContinues (env i) = true) →
        ∀ a fuel, pollFrom env a fuel = ParseOutcome.timeout)
      ∧ (∀ env : Nat → PollStep,
          (∀ i, ∃ d renv, env i = PollStep.ok d renv ∧ statusOf d = JobStatus.pending) →
          pollFrom env 0 maxAttempts = ParseOutcome.timeout) := by
  constructor
  · intro env h a fuel
    exact pollFrom_all_continue env h fuel a
  · intro env h
    apply pollFrom_all_continue
    intro i
    obtain ⟨d, renv, he, hs⟩ := h i
    simp [stepContinues, he, hs]

/-- C7 witness: the always-pending environment times out after the
full budget. -/
theorem C7_timeout_witness :
    statusOf pendPayload = JobStatus.pending
      ∧ pollFrom pendEnv 0 maxAttempts = ParseOutcome.timeout :=
  ⟨rfl, C7_timeout_on_budget_exhaustion.2 pendEnv
      (fun _ => ⟨pendPayload, emptyResolve, rfl, rfl⟩)⟩

/-- C8: a submission response carrying a job id under neither `id`
nor `job_id` fails with the no-job-id error before any polling: the
outcome is independent of the poll environment. -/
theorem C8_missing_job_id (resp : Json) (env : Nat → PollStep)
    (h1 : getField resp "id" = none) (h2 : getField resp "job_id" = none) :
    parseDocumentWithLlamaParse resp env = ParseOutcome.noJobId := by
  unfold parseDocumentWithLlamaParse getJobId
  rw [fieldTruthy_of_getField_none _ _ h1, fieldTruthy_of_getField_none _ _ h2]

/-- C8 witness: a response with only a `detail` field fails with the
no-job-id error. -/
theorem C8_missing_job_id_witness :
    getField (Json.obj [("detail", Json.str "unauthorized")]) "id" = none
      ∧ getField (Json.obj [("detail", Json.str "unauthorized")]) "job_id" = none
      ∧ parseDocumentWithLlamaParse (Json.obj [("detail", Json.str "unauthorized")]) errEnv
          = ParseOutcome.noJobId :=
  ⟨rfl, rfl, C8_missing_job_id _ errEnv rfl rfl⟩

/-- C9: a transport fault during a poll iteration whose final failure
is not a 404 is swallowed and the loop moves to the next attempt; a
404-class fault ends the call immediately with the
job-may-have-expired (transient) error. -/
theorem C9_poll_fault_handling (env : Nat → PollStep) (a fuel : Nat) :
    (env a = PollStep.err false →
        pollFrom env a (fuel + 1) = pollFrom env (a + 1) fuel)
      ∧ (env a = PollStep.err true →
        pollFrom env a (fuel + 1) = ParseOutcome.notFoundErr) := by
  constructor
  · intro h
    apply pollFrom_step
    simp [stepContinues, h]
  · intro h
    rw [pollFrom_succ, h]
    simp

/-- C9 witness: a non-404 fault continues; a 404 fault fails with the
transient error. -/
theorem C9_poll_fault_handling_witness :
    pollFrom (fun _ => PollStep.err false) 0 1 = pollFrom (fun _ => PollStep.err false) 1 0
      ∧ pollFrom (fun _ => PollStep.err true) 0 1 = ParseOutcome.notFoundErr :=
  ⟨(C9_poll_fault_handling (fun _ => PollStep.err false) 0 0).1 rfl,
   (C9_poll_fault_handling (fun _ => PollStep.err true) 0 0).2 rfl⟩

/-- C10: a recognized field holding the empty string is skipped (the
guards test truthiness, so precedence falls through to the next
field), and success iterations whose extraction is falsy never stop
the loop: an environment of such iterations exhausts the budget and
ends in the timeout error even though the job reported success. -/
theorem C10_empty_text_behaviour :
    (∀ (d v : Json), getField d "markdown" = some (Json.str "") →
        fieldTruthy d "text" = some v → extractTextJ d = some v)
      ∧ (∀ env : Nat → PollStep,
          (∀ i, ∃ d renv, env i = PollStep.ok d renv ∧ statusOf d = JobStatus.success
              ∧ (extractTextJ (computeDocumentData d renv) = none
                  ∨ ∃ v, extractTextJ (computeDocumentData d renv) = some v
                      ∧ truthy v = false)) →
          ∀ a fuel, pollFrom env a fuel = ParseOutcome.timeout) := by
  constructor
  · intro d v h1 h2
    have hm : fieldTruthy d "markdown" = none := by
      unfold fieldTruthy
      rw [h1]
      rfl
    simp only [extractTextJ, hm, h2]
  · intro env h a fuel
    apply pollFrom_all_continue
    intro i
    obtain ⟨d, renv, he, hs, hx⟩ := h i
    rcases hx with hx | ⟨v, hx, hv⟩
    · simp [stepContinues, he, hs, hx]
    · simp [stepContinues, he, hs, hx, hv]

/-- C10 witness: `{markdown: "", text: "body"}` resolves to `"body"`,
and the environment whose success payload extracts nothing times out
over the full budget. -/
theorem C10_empty_text_behaviour_witness :
    extractTextJ (Json.obj [("markdown", Json.str ""), ("text", Json.str "body")])
        = some (Json.str "body")
      ∧ pollFrom emptyExtractEnv 0 maxAttempts = ParseOutcome.timeout :=
  ⟨C10_empty_text_behaviour.1 _ _ rfl rfl,
   C10_empty_text_behaviour.2 emptyExtractEnv
     (fun _ => ⟨emptyExtractPayload, emptyResolve, rfl, rfl, Or.inl rfl⟩) 0 maxAttempts⟩

/-- C5 (amended): the candidate chain stops at the first SDK success
whose text is non-empty and returns it; a not-found-class failure is
skipped silently and the next candidate tried; any other failure
aborts the chain at once — independently of the later candidates —
and surfaces as the upstream error; a first success with empty text
ends the candidate loop but is not returned: the REST fallback result
is used instead. -/
theorem C5_model_chain (env : GeminiEnv) :
    (∀ t, env.sdk "gemini-1.5-flash" = ModelResult.ok t → t ≠ "" →
        summarizeWithGemini env = SummarizeOutcome.ok (Json.str t))
      ∧ (∀ a t, env.sdk "gemini-1.5-flash" = ModelResult.err a → isNotFoundMsg a = true →
          env.sdk "gemini-1.5-pro" = ModelResult.ok t → t ≠ "" →
          summarizeWithGemini env = SummarizeOutcome.ok (Json.str t))
      ∧ (∀ a, env.sdk "gemini-1.5-flash" = ModelResult.err a → isNotFoundMsg a = false →
          summarizeWithGemini env = SummarizeOutcome.upstreamErr a)
      ∧ (∀ a b, env.sdk "gemini-1.5-flash" = ModelResult.err a → isNotFoundMsg a = true →
          env.sdk "gemini-1.5-pro" = ModelResult.err b → isNotFoundMsg b = false →
          summarizeWithGemini env = SummarizeOutcome.upstreamErr b)
      ∧ (env.sdk "gemini-1.5-flash" = ModelResult.ok "" →
          summarizeWithGemini env = restPart env) := by
  refine ⟨?_, ?_, ?_, ?_, ?_⟩
  · intro t h1 ht
    have hne : t.isEmpty = false := by
      cases hi : t.isEmpty
      · rfl
      · exact absurd ((String.isEmpty_iff t).mp hi) ht
    simp [summarizeWithGemini, modelNames, tryModels, h1, hne]
  · intro a t h1 h2 h3 ht
    have hne : t.isEmpty = false := by
      cases hi : t.isEmpty
      · rfl
      · exact absurd ((String.isEmpty_iff t).mp hi) ht
    simp [summarizeWithGemini, modelNames, tryModels, h1, h2, h3, hne]
  · intro a h1 h2
    simp [summarizeWithGemini, modelNames, tryModels, h1, h2]
  · intro a b h1 h2 h3 h4
    simp [summarizeWithGemini, modelNames, tryModels, h1, h2, h3, h4]
  · intro h1
    have he : ("" : String).isEmpty = true := rfl
    simp [summarizeWithGemini, modelNames, tryModels, h1, he]

/-- C5 (counterexample): on `emptyFirstEnv` the first candidate
"succeeds" with empty text.  The claim as stated returns that model's
output, but the source's `if (!summary)` treats the empty summary as
missing and the REST fallback's text is returned instead. -/
theorem C5_counterexample :
    emptyFirstEnv.sdk "gemini-1.5-flash" = ModelResult.ok ""
      ∧ summarizeWithGemini emptyFirstEnv = SummarizeOutcome.ok (Json.str "rest-fallback-text")
      ∧ SummarizeOutcome.ok (Json.str "rest-fallback-text")
          ≠ SummarizeOutcome.ok (Json.str "") := by
  refine ⟨rfl, rfl, ?_⟩
  simp

/-- C5 witness: the first candidate fails with a not-found message
and the second candidate's output is returned. -/
theorem C5_model_chain_witness :
    skipFirstEnv.sdk "gemini-1.5-flash" = ModelResult.err "404 model not found"
      ∧ isNotFoundMsg "404 model not found" = true
      ∧ summarizeWithGemini skipFirstEnv = SummarizeOutcome.ok (Json.str "summary-text") :=
  ⟨rfl, rfl, (C5_model_chain skipFirstEnv).2.1 "404 model not found" "summary-text"
      rfl rfl rfl (by simp)⟩

/-- C6: when every SDK candidate fails with a not-found-class error,
the single REST fallback decides the outcome: a successful call with
a truthy `candidates[0].content.parts[0].text` returns exactly that
text without any all-models-failed error; a failing call, a missing
text path, or a falsy text value makes the whole call fail (the REST
error or the `Failed to get response from Gemini API` error — the
spec's all-models-failed outcome). -/
theorem C6_rest_fallback (env : GeminiEnv)
    (hf : ∃ a, env.sdk "gemini-1.5-flash" = ModelResult.err a ∧ isNotFoundMsg a = true)
    (hp : ∃ a, env.sdk "gemini-1.5-pro" = ModelResult.err a ∧ isNotFoundMsg a = true)
    (hg : ∃ a, env.sdk "gemini-pro" = ModelResult.err a ∧ isNotFoundMsg a = true) :
    (∀ d v, env.rest = RestOutcome.ok d → restText d = some v → truthy v = true →
        summarizeWithGemini env = SummarizeOutcome.ok v)
      ∧ (∀ m, env.rest = RestOutcome.err m →
          summarizeWithGemini env = SummarizeOutcome.restErr m)
      ∧ (∀ d, env.rest = RestOutcome.ok d → restText d = none →
          summarizeWithGemini env = SummarizeOutcome.noUsableText)
      ∧ (∀ d v, env.rest = RestOutcome.ok d → restText d = some v → truthy v = false →
          summarizeWithGemini env = SummarizeOutcome.noUsableText) := by
  obtain ⟨a, ha, ha4⟩ := hf
  obtain ⟨b, hb, hb4⟩ := hp
  obtain ⟨c, hc, hc4⟩ := hg
  have hchain : summarizeWithGemini env = restPart env := by
    simp [summarizeWithGemini, modelNames, tryModels, ha, ha4, hb, hb4, hc, hc4]
  refine ⟨?_, ?_, ?_, ?_⟩
  · intro d v hr hx hv
    rw [hchain]
    simp [restPart, hr, hx, hv]
  · intro m hr
    rw [hchain]
    simp [restPart, hr]
  · intro d hr hx
    rw [hchain]
    simp [restPart, hr, hx]
  · intro d v hr hx hv
    rw [hchain]
    simp [restPart, hr, hx, hv]

/-- C6 witness: all candidates fail with a not-found message and the
REST fallback's text is returned. -/
theorem C6_rest_fallback_witness :
    isNotFoundMsg "models/x is not found for API version v1beta" = true
      ∧ summarizeWithGemini allNotFoundEnv = SummarizeOutcome.ok (Json.str "rest-summary") :=
  ⟨rfl, (C6_rest_fallback allNotFoundEnv ⟨_, rfl, rfl⟩ ⟨_, rfl, rfl⟩ ⟨_, rfl, rfl⟩).1
      (restOkBody "rest-summary") (Json.str "rest-summary") rfl rfl rfl⟩
